import Mathlib

/-!
Shallow embedding of `src/controllers/product.controller.ts` of the
admin-boilerplate-api repository, together with theorems settling the
behavioural claims about its image-asset handling.

The effectful calls of the controller (filesystem writes/deletes, repository
CRUD calls, warning logs) are modelled as an explicit trace of events
(`Ev`) in the order the source issues them; the outcome of the
asynchronous `fs.writeFile` / `fs.unlink` callbacks is passed in as a
boolean parameter, and the events a callback performs appear after the
file event that triggered it, matching the continuation order of the source.
-/

namespace AdminBoilerplate

/-- A product record: the `id` and the optional `previewImage` field of the
`Product` model. `none` models an absent (`undefined`) field, `some ""` an
empty string. `rest` stands for all remaining model fields, which the
controller carries through untouched. -/
structure Product where
  id : String
  previewImage : Option String
  rest : String
deriving DecidableEq, Repr

/-- The part of the inbound HTTP request the controller reads:
`req.protocol` and `req.headers.host`. -/
structure ReqInfo where
  protocol : String
  host : String
deriving DecidableEq, Repr

/-- Observable effects of the controller, in issue order: file-store calls,
record-store (repository) calls, warning logs, file serving, and a
client-facing HTTP error (no modelled code path emits one, but the
constructor lets theorems state that no error is produced). -/
inductive Ev where
  | fileWrite (path : String) (bytes : List Nat) (ok : Bool)
  | fileDelete (path : String) (ok : Bool)
  | serveFile (path : String)
  | repoCreate (record : Product)
  | repoUpdate (id : String) (record : Product)
  | repoReplace (id : String) (record : Product)
  | repoFindById (id : String)
  | repoDeleteById (id : String)
  | logWarn (msg : String)
  | httpError (status : Nat)
deriving DecidableEq, Repr

def Ev.isFileWrite : Ev → Bool
  | .fileWrite _ _ _ => true
  | _ => false

def Ev.isRepoReplace : Ev → Bool
  | .repoReplace _ _ => true
  | _ => false

def Ev.isHttpError : Ev → Bool
  | .httpError _ => true
  | _ => false

/-- The records handed to the Record Store by any state-changing call. -/
def storeWriteRecords (tr : List Ev) : List Product :=
  tr.filterMap fun e =>
    match e with
    | .repoCreate p => some p
    | .repoUpdate _ p => some p
    | .repoReplace _ p => some p
    | _ => none

def fileWritePaths (tr : List Ev) : List String :=
  tr.filterMap fun e =>
    match e with
    | .fileWrite p _ _ => some p
    | _ => none

def fileWriteBytes (tr : List Ev) : List (List Nat) :=
  tr.filterMap fun e =>
    match e with
    | .fileWrite _ b _ => some b
    | _ => none

def fileDeletePaths (tr : List Ev) : List String :=
  tr.filterMap fun e =>
    match e with
    | .fileDelete p _ => some p
    | _ => none

/-! ### String primitives (JS semantics, character based) -/

/-- Does `t` begin with `needle`? -/
def subAtL (needle t : List Char) : Bool :=
  t.take needle.length == needle

/-- Does `needle` occur as a contiguous substring of the second list? -/
def hasSubL (needle : List Char) : List Char → Bool
  | [] => needle == []
  | c :: rest => subAtL needle (c :: rest) || hasSubL needle rest

/-- JS `s.startsWith(pre)`. -/
def strStartsWith (s pre : String) : Bool :=
  subAtL pre.data s.data

/-- One attempt of the regex `/jpeg|png|jpg/` at the head of `cs`:
alternatives are tried left to right, as in JS. -/
def matchAltAt (cs : List Char) : Option String :=
  if subAtL "jpeg".data cs then some "jpeg"
  else if subAtL "png".data cs then some "png"
  else if subAtL "jpg".data cs then some "jpg"
  else none

/-- Leftmost match of `/jpeg|png|jpg/` (JS `String.match`, first group),
or `""` when there is no match (the `?.[0] ?? ` fallback of the source). -/
def extSearchL : List Char → String
  | [] => ""
  | c :: rest =>
    match matchAltAt (c :: rest) with
    | some m => m
    | none => extSearchL rest

/-- `previewImage.split(';')[0].match(/jpeg|png|jpg/)?.[0] ?? ''` -/
def extOfDataUri (s : String) : String :=
  extSearchL (s.data.takeWhile (fun c => c != ';'))

/-- JS regex `\w`: `[A-Za-z0-9_]`. -/
def isWordChar (c : Char) : Bool :=
  c.isAlpha || c.isDigit || c == '_'

/-- `previewImage.replace(/^data:image\/\w+;base64,/, '')`: strip the
data-URI header when it matches at the start, otherwise return the string
unchanged. -/
def stripDataUriHeader (s : String) : String :=
  let cs := s.data
  if cs.take 11 == "data:image/".data then
    let w := (cs.drop 11).takeWhile isWordChar
    let rest := (cs.drop 11).drop w.length
    if w != [] && rest.take 8 == ";base64,".data then
      String.mk (rest.drop 8)
    else s
  else s

/-! ### Base64 decoding (Node `Buffer.from(s, "base64")`)

The Node decoder is best-effort and total: it stops decoding entirely at
the first `=` (src/base64-inl.h), skips every other character outside
the base64 alphabet (such as whitespace), decodes the remaining sextets
in groups of four into three bytes, and a trailing partial group of two
or three sextets yields one or two bytes (a lone trailing sextet yields
nothing). -/

/-- Value of one base64 alphabet character (standard and URL-safe), by
ASCII code; `none` for every other character. The `=` terminator never
reaches this table: `bufferFromBase64` truncates at the first `=` before
looking characters up, matching the Node decoder, which stops rather
than skips there. -/
def b64Val (c : Char) : Option Nat :=
  let n := c.toNat
  if 65 ≤ n && n ≤ 90 then some (n - 65)            -- 'A'..'Z'
  else if 97 ≤ n && n ≤ 122 then some (n - 97 + 26) -- 'a'..'z'
  else if 48 ≤ n && n ≤ 57 then some (n - 48 + 52)  -- '0'..'9'
  else if n == 43 || n == 45 then some 62           -- '+' or url-safe '-'
  else if n == 47 || n == 95 then some 63           -- '/' or url-safe '_'
  else none

/-- Group sextets four at a time into bytes; best-effort on a short tail. -/
def decodeSextets : List Nat → List Nat
  | a :: b :: c :: d :: rest =>
    (a * 4 + b / 16) :: ((b % 16) * 16 + c / 4) :: ((c % 4) * 64 + d) ::
      decodeSextets rest
  | [a, b] => [a * 4 + b / 16]
  | [a, b, c] => [a * 4 + b / 16, (b % 16) * 16 + c / 4]
  | _ => []

/-- `Buffer.from(s, "base64")` as a list of byte values: decoding stops
at the first `=`, skips other non-alphabet characters, and groups the
sextets into bytes. -/
def bufferFromBase64 (s : String) : List Nat :=
  decodeSextets ((s.data.takeWhile (fun c => c != '=')).filterMap b64Val)

/-! ### The controller -/

def IMAGE_FOLDER : String := "images"

def PRODUCT_IMAGE_FOLDER : String := "product"

/-- The preview-filename constant of the source (`"preview_"`). -/
def PREVIEW_STEM : String := "preview_"

/-- `path.join(IMAGE_FOLDER, PRODUCT_IMAGE_FOLDER)`. -/
def imageStorageDirectory : String :=
  IMAGE_FOLDER ++ "/" ++ PRODUCT_IMAGE_FOLDER

/-- `handleRawImageProductReplacement(product)`. `writeOk` is the outcome
the asynchronous `fs.writeFile` reports to its callback; the callback
events follow the write event. -/
def handleRawImageProductReplacement (req : ReqInfo) (writeOk : Bool)
    (product : Product) : List Ev :=
  let pimg := product.previewImage.getD ""
  if pimg == "" then
    [Ev.repoReplace product.id product]
  else
    let ext := extOfDataUri pimg
    let data := stripDataUriHeader pimg
    let buf := bufferFromBase64 data
    let storageFileName := PREVIEW_STEM ++ product.id ++ "." ++ ext
    let filePath := imageStorageDirectory ++ "/" ++ storageFileName
    if writeOk then
      let url := req.protocol ++ "://" ++ req.host ++ "/product-images/"
                   ++ storageFileName
      [Ev.fileWrite filePath buf true,
       Ev.repoReplace product.id { product with previewImage := some url }]
    else
      [Ev.fileWrite filePath buf false,
       Ev.logWarn ("Error writing preview image for product " ++ product.id),
       Ev.repoReplace product.id product]

/-- `PUT /products/{id}` (`replaceById`). -/
def replaceById (req : ReqInfo) (writeOk : Bool) (id : String)
    (product : Product) : List Ev :=
  if strStartsWith (product.previewImage.getD "") "data:image" then
    handleRawImageProductReplacement req writeOk product
  else
    [Ev.repoReplace id product]

/-- `POST /products` (`create`). -/
def create (product : Product) : List Ev :=
  [Ev.repoCreate product]

/-- `PATCH /products/{id}` (`updateById`). -/
def updateById (id : String) (product : Product) : List Ev :=
  [Ev.repoUpdate id product]

/-- JS `s.split(sep)` on characters, by structural recursion. -/
def splitOnCharL (sep : Char) : List Char → List (List Char)
  | [] => [[]]
  | c :: rest =>
    let r := splitOnCharL sep rest
    if c == sep then [] :: r
    else
      match r with
      | [] => [[c]]
      | g :: gs => (c :: g) :: gs

/-- JS `s.split('/')`. -/
def splitSlash (s : String) : List String :=
  (splitOnCharL '/' s.data).map String.mk

/-- Join path segments with `/`. -/
def joinSlash : List String → String
  | [] => ""
  | [s] => s
  | s :: rest => s ++ "/" ++ joinSlash rest

/-- JS `s.split('/').pop()` (with `undefined` as `""`). -/
def lastSeg (s : String) : String :=
  (splitSlash s).getLastD ""

/-- `deleteProductPreviewImage(product)`. `unlinkOk` is the outcome
`fs.unlink` reports to its callback. -/
def deleteProductPreviewImage (unlinkOk : Bool) (product : Product) :
    List Ev :=
  let previewFileName := lastSeg (product.previewImage.getD "")
  if previewFileName == "" then []
  else
    Ev.fileDelete (imageStorageDirectory ++ "/" ++ previewFileName) unlinkOk ::
      (if unlinkOk then []
       else [Ev.logWarn ("Error deleting preview image for product "
                           ++ product.id)])

/-- `DELETE /products/{id}` (`deleteById`), on an existing record `found`
(the result of the `findById` lookup). -/
def deleteById (unlinkOk : Bool) (id : String) (found : Product) : List Ev :=
  Ev.repoFindById id ::
    ((if (found.previewImage.getD "") == "" then []
      else deleteProductPreviewImage unlinkOk found)
      ++ [Ev.repoDeleteById id])

/-- One segment step of POSIX path normalisation. -/
def normStep (acc : List String) (seg : String) : List String :=
  if seg == "" || seg == "." then acc
  else if seg == ".." then acc.tail
  else seg :: acc

/-- Node `path.resolve(dir, fname)` on POSIX, with working directory
`cwd` (an absolute path): build the absolute candidate path, then
normalise `.`/`..`/empty segments, clamping `..` at the root. -/
def pathResolve (cwd dir fname : String) : String :=
  let base :=
    if strStartsWith fname "/" then fname
    else if strStartsWith dir "/" then dir ++ "/" ++ fname
    else cwd ++ "/" ++ dir ++ "/" ++ fname
  "/" ++ joinSlash (((splitSlash base).foldl normStep []).reverse)

/-- `GET /product-images/{filename}` (`sendFile`): resolve against the
image directory and serve the resolved file, with no validation. -/
def sendFile (cwd fileName : String) : List Ev :=
  [Ev.serveFile (pathResolve cwd imageStorageDirectory fileName)]

/-! ### Helper lemmas -/

theorem str_append_empty (s : String) : s ++ "" = s := by
  cases s with
  | mk l => show String.mk (l ++ []) = String.mk l; rw [List.append_nil]

theorem str_append_assoc (a b c : String) : (a ++ b) ++ c = a ++ (b ++ c) :=
  String.ext (List.append_assoc a.data b.data c.data)

theorem strStartsWith_append (a b : String) : strStartsWith (a ++ b) a = true := by
  show ((a.data ++ b.data).take a.data.length == a.data) = true
  rw [List.take_left]
  exact beq_self_eq_true a.data

theorem startsWith_dataimage_ne_empty {s : String}
    (h : strStartsWith s "data:image" = true) : (s == "") = false := by
  cases s with
  | mk l =>
    cases l with
    | nil => exact absurd h (by decide)
    | cons c cs => rfl

theorem takeWhile_append_all {p : Char → Bool} {l1 : List Char} (l2 : List Char)
    (h : ∀ c ∈ l1, p c = true) :
    (l1 ++ l2).takeWhile p = l1 ++ l2.takeWhile p := by
  induction l1 with
  | nil => simp
  | cons c rest ih =>
    simp [List.takeWhile_cons, h c (List.mem_cons_self c rest),
          ih (fun x hx => h x (List.mem_cons_of_mem c hx))]

theorem extSearchL_header (cs : List Char) :
    extSearchL ("data:image/".data ++ cs) = extSearchL cs := rfl

theorem extSearchL_eq_empty {cs : List Char}
    (h2 : hasSubL "jpeg".data cs = false)
    (h3 : hasSubL "png".data cs = false)
    (h4 : hasSubL "jpg".data cs = false) :
    extSearchL cs = "" := by
  induction cs with
  | nil => rfl
  | cons c rest ih =>
    rw [hasSubL, Bool.or_eq_false_iff] at h2 h3 h4
    rw [extSearchL, matchAltAt, h2.1, h3.1, h4.1]
    exact ih h2.2 h3.2 h4.2

theorem b64Val_lt {c : Char} {v : Nat} (h : b64Val c = some v) : v < 64 := by
  simp only [b64Val] at h
  repeat' split at h
  all_goals
    first
      | (injection h with hv
         simp_all only [Bool.and_eq_true, Bool.or_eq_true, decide_eq_true_eq,
           beq_iff_eq]
         omega)
      | injection h

theorem byte1_lt {a b : Nat} (ha : a < 64) (hb : b < 64) :
    a * 4 + b / 16 < 256 := by
  have h1 : b / 16 ≤ 3 := by
    have h2 := Nat.div_le_div_right (c := 16) (Nat.le_of_lt_succ hb)
    simpa using h2
  omega

theorem byte2_lt {b c : Nat} (_hb : b < 64) (hc : c < 64) :
    (b % 16) * 16 + c / 4 < 256 := by
  have h1 : c / 4 ≤ 15 := by
    have h2 := Nat.div_le_div_right (c := 4) (Nat.le_of_lt_succ hc)
    simpa using h2
  have h3 : b % 16 ≤ 15 := Nat.le_of_lt_succ (Nat.mod_lt b (by norm_num))
  omega

theorem byte3_lt {c d : Nat} (_hc : c < 64) (hd : d < 64) :
    (c % 4) * 64 + d < 256 := by
  have h1 : c % 4 ≤ 3 := Nat.le_of_lt_succ (Nat.mod_lt c (by norm_num))
  omega

theorem decodeSextets_lt (l : List Nat) (h : ∀ v ∈ l, v < 64) :
    ∀ b ∈ decodeSextets l, b < 256 :=
  match l, h with
  | a :: b :: c :: d :: rest, h => by
    intro x hx
    have he : decodeSextets (a :: b :: c :: d :: rest)
        = (a * 4 + b / 16) :: ((b % 16) * 16 + c / 4) :: ((c % 4) * 64 + d)
            :: decodeSextets rest := rfl
    rw [he] at hx
    simp only [List.mem_cons] at hx
    have ha := h a (by simp)
    have hb := h b (by simp)
    have hc := h c (by simp)
    have hd := h d (by simp)
    rcases hx with rfl | rfl | rfl | hx
    · exact byte1_lt ha hb
    · exact byte2_lt hb hc
    · exact byte3_lt hc hd
    · exact decodeSextets_lt rest (fun v hv => h v (by simp [hv])) x hx
  | [a, b], h => by
    intro x hx
    have he : decodeSextets [a, b] = [a * 4 + b / 16] := rfl
    rw [he] at hx
    simp only [List.mem_singleton] at hx
    subst hx
    exact byte1_lt (h a (by simp)) (h b (by simp))
  | [a, b, c], h => by
    intro x hx
    have he : decodeSextets [a, b, c]
        = [a * 4 + b / 16, (b % 16) * 16 + c / 4] := rfl
    rw [he] at hx
    simp only [List.mem_cons, List.not_mem_nil, or_false] at hx
    rcases hx with rfl | rfl
    · exact byte1_lt (h a (by simp)) (h b (by simp))
    · exact byte2_lt (h b (by simp)) (h c (by simp))
  | [], _ => by
    intro x hx
    rw [show decodeSextets [] = [] from rfl] at hx
    exact absurd hx (List.not_mem_nil x)
  | [a], _ => by
    intro x hx
    rw [show decodeSextets [a] = [] from rfl] at hx
    exact absurd hx (List.not_mem_nil x)

theorem bufferFromBase64_lt (s : String) : ∀ b ∈ bufferFromBase64 s, b < 256 := by
  apply decodeSextets_lt
  intro v hv
  rw [List.mem_filterMap] at hv
  obtain ⟨c, _, hc⟩ := hv
  exact b64Val_lt hc

/-! ### Claim theorems -/

/-- C1 counterexample: the claim names the file after the `id` parameter of the call
parameter, but `handleRawImageProductReplacement` uses `product.id` from
the request body throughout. Replacing at path id `"1"` a record whose
own id is `"2"` writes `preview_2.png`, not `preview_1.png`, and the
Record Store replace is keyed by `"2"` as well. -/
theorem c1_file_named_after_body_id :
    fileWritePaths (replaceById ⟨"http", "h"⟩ true "1"
        (Product.mk "2" (some "data:image/png;base64,AA==") "r"))
      = ["images/product/preview_2.png"] ∧
    "images/product/preview_2.png" ≠ "images/product/preview_1.png" ∧
    storeWriteRecords (replaceById ⟨"http", "h"⟩ true "1"
        (Product.mk "2" (some "data:image/png;base64,AA==") "r"))
      = [Product.mk "2" (some "http://h/product-images/preview_2.png") "r"] := by
  decide

/-- C1 (amended): for every replace call whose incoming record carries a
well-formed `data:image/png;base64,<payload>` preview image, the file
`preview_<recordId>.png` (named after the own id of the incoming record — the
path id is ignored in this branch) is written in the image directory with
the base64-decoded payload bytes; when the write succeeds the record
handed to the replace-by-id of the Record Store has `previewImage` equal to
`<protocol>://<host>/product-images/preview_<recordId>.png`, scheme and
host taken from the inbound request. -/
theorem c1_datauri_png_replace (req : ReqInfo) (w : Bool)
    (id pid prest payload : String) :
    replaceById req w id
        (Product.mk pid (some ("data:image/png;base64," ++ payload)) prest) =
      if w then
        [Ev.fileWrite
           (imageStorageDirectory ++ "/" ++ ("preview_" ++ pid ++ "." ++ "png"))
           (bufferFromBase64 payload) true,
         Ev.repoReplace pid
           (Product.mk pid
             (some (req.protocol ++ "://" ++ req.host ++ "/product-images/"
                      ++ ("preview_" ++ pid ++ "." ++ "png"))) prest)]
      else
        [Ev.fileWrite
           (imageStorageDirectory ++ "/" ++ ("preview_" ++ pid ++ "." ++ "png"))
           (bufferFromBase64 payload) false,
         Ev.logWarn ("Error writing preview image for product " ++ pid),
         Ev.repoReplace pid
           (Product.mk pid (some ("data:image/png;base64," ++ payload)) prest)] := by
  cases w <;> rfl

/-- C2: in the data-URI branch, when the file write fails the Record
Store replace-by-id is still performed, receiving the record with
`previewImage` equal to the original data-URI string unchanged (the very
input record), and no HTTP error is produced for the caller. -/
theorem c2_write_failure_keeps_datauri (req : ReqInfo) (id : String)
    (p : Product)
    (h : strStartsWith (p.previewImage.getD "") "data:image" = true) :
    storeWriteRecords (replaceById req false id p) = [p] ∧
    (replaceById req false id p).all (fun e => !(Ev.isHttpError e)) = true := by
  have hne : ((p.previewImage.getD "") == "") = false :=
    startsWith_dataimage_ne_empty h
  simp [replaceById, handleRawImageProductReplacement, h, hne,
    storeWriteRecords, Ev.isHttpError]

theorem c2_witness :
    strStartsWith ((Product.mk "1" (some "data:image/png;base64,AA==") "r").previewImage.getD "")
        "data:image" = true ∧
    storeWriteRecords (replaceById ⟨"http", "h"⟩ false "1"
        (Product.mk "1" (some "data:image/png;base64,AA==") "r"))
      = [Product.mk "1" (some "data:image/png;base64,AA==") "r"] ∧
    (replaceById ⟨"http", "h"⟩ false "1"
        (Product.mk "1" (some "data:image/png;base64,AA==") "r")).all
        (fun e => !(Ev.isHttpError e)) = true :=
  ⟨by decide,
   c2_write_failure_keeps_datauri ⟨"http", "h"⟩ "1"
     (Product.mk "1" (some "data:image/png;base64,AA==") "r") (by decide)⟩

/-- C3: in the data-URI branch the Record Store replace event always
occurs at a strictly later trace position than the file-write attempt of
the same call, for both write outcomes. -/
theorem c3_store_write_after_file_write (req : ReqInfo) (w : Bool)
    (id : String) (p : Product) (i j : Nat) (ei ej : Ev)
    (h : strStartsWith (p.previewImage.getD "") "data:image" = true)
    (hi : (replaceById req w id p)[i]? = some ei)
    (hif : ei.isFileWrite = true)
    (hj : (replaceById req w id p)[j]? = some ej)
    (hjr : ej.isRepoReplace = true) :
    i < j := by
  have hne : ((p.previewImage.getD "") == "") = false :=
    startsWith_dataimage_ne_empty h
  cases w with
  | false =>
    have htr : replaceById req false id p =
        [Ev.fileWrite (imageStorageDirectory ++ "/" ++ (PREVIEW_STEM ++ p.id
             ++ "." ++ extOfDataUri (p.previewImage.getD "")))
           (bufferFromBase64 (stripDataUriHeader (p.previewImage.getD ""))) false,
         Ev.logWarn ("Error writing preview image for product " ++ p.id),
         Ev.repoReplace p.id p] := by
      simp [replaceById, handleRawImageProductReplacement, h, hne]
    rw [htr] at hi hj
    rcases i with _ | _ | _ | i <;> rcases j with _ | _ | _ | j <;>
      simp only [List.getElem?_cons_zero, List.getElem?_cons_succ,
        List.getElem?_nil] at hi hj <;>
      first
        | exact Option.noConfusion hi
        | exact Option.noConfusion hj
        | (obtain rfl : _ = ei := Option.some_inj.mp hi
           obtain rfl : _ = ej := Option.some_inj.mp hj
           simp [Ev.isFileWrite, Ev.isRepoReplace] at hif hjr <;> omega)
  | true =>
    have htr : replaceById req true id p =
        [Ev.fileWrite (imageStorageDirectory ++ "/" ++ (PREVIEW_STEM ++ p.id
             ++ "." ++ extOfDataUri (p.previewImage.getD "")))
           (bufferFromBase64 (stripDataUriHeader (p.previewImage.getD ""))) true,
         Ev.repoReplace p.id
           (Product.mk p.id
             (some (req.protocol ++ "://" ++ req.host ++ "/product-images/"
                      ++ (PREVIEW_STEM ++ p.id ++ "."
                            ++ extOfDataUri (p.previewImage.getD "")))) p.rest)] := by
      simp [replaceById, handleRawImageProductReplacement, h, hne]
    rw [htr] at hi hj
    rcases i with _ | _ | _ | i <;> rcases j with _ | _ | _ | j <;>
      simp only [List.getElem?_cons_zero, List.getElem?_cons_succ,
        List.getElem?_nil] at hi hj <;>
      first
        | exact Option.noConfusion hi
        | exact Option.noConfusion hj
        | (obtain rfl : _ = ei := Option.some_inj.mp hi
           obtain rfl : _ = ej := Option.some_inj.mp hj
           simp [Ev.isFileWrite, Ev.isRepoReplace] at hif hjr <;> omega)

theorem c3_witness : (0 : Nat) < 1 :=
  c3_store_write_after_file_write ⟨"http", "h"⟩ true "1"
    (Product.mk "1" (some "data:image/png;base64,AA==") "r") 0 1
    (Ev.fileWrite "images/product/preview_1.png" [0] true)
    (Ev.repoReplace "1"
      (Product.mk "1" (some "http://h/product-images/preview_1.png") "r"))
    (by decide) (by decide) (by decide) (by decide) (by decide)

/-- C6: when the `previewImage` of the incoming record does not start with the
data-URI image marker (including absent or empty values), the Record
Store replace-by-id receives exactly the record as given, keyed by the
path id, and no File Store call is made. -/
theorem c6_plain_replace_passthrough (req : ReqInfo) (w : Bool) (id : String)
    (p : Product)
    (h : strStartsWith (p.previewImage.getD "") "data:image" = false) :
    replaceById req w id p = [Ev.repoReplace id p] := by
  simp [replaceById, h]

theorem c6_witness :
    strStartsWith ((Product.mk "1" (some "http://h/x.png") "r").previewImage.getD "")
        "data:image" = false ∧
    replaceById ⟨"http", "h"⟩ true "1" (Product.mk "1" (some "http://h/x.png") "r")
      = [Ev.repoReplace "1" (Product.mk "1" (some "http://h/x.png") "r")] :=
  ⟨by decide,
   c6_plain_replace_passthrough ⟨"http", "h"⟩ true "1"
     (Product.mk "1" (some "http://h/x.png") "r") (by decide)⟩

/-- C4 counterexample: the persisted-`previewImage` invariant fails on the
code. A replace in the data-URI branch whose file write fails hands the
Record Store the record with the raw data-URI still in `previewImage`, so
a persisted record can hold a data-URI (the same happens for create and
patch, which pass records through unchanged). -/
theorem c4_counterexample :
    ∃ q ∈ storeWriteRecords (replaceById ⟨"http", "h"⟩ false "9"
        (Product.mk "9" (some "data:image/png;base64,AA==") "r")),
      strStartsWith (q.previewImage.getD "") "data:image" = true := by
  decide

/-- C4 (amended): the invariant holds only on the successful-write path of
the data-URI replace branch: there every record handed to the Record
Store has `previewImage` rewritten to a URL starting with
`<protocol>://`. When the file write fails (or when create/patch receive
a data-URI) the incoming value is persisted unchanged and may be a
data-URI. -/
theorem c4_success_persists_url (req : ReqInfo) (id : String) (p : Product)
    (h : strStartsWith (p.previewImage.getD "") "data:image" = true) :
    ∀ q ∈ storeWriteRecords (replaceById req true id p),
      strStartsWith (q.previewImage.getD "") (req.protocol ++ "://") = true := by
  have hne : ((p.previewImage.getD "") == "") = false :=
    startsWith_dataimage_ne_empty h
  simp only [replaceById, handleRawImageProductReplacement, h, hne, if_true,
    Bool.false_eq_true, reduceIte, storeWriteRecords, List.filterMap_cons,
    List.filterMap_nil, List.mem_singleton]
  intro q hq
  subst hq
  show strStartsWith ((req.protocol ++ "://" ++ req.host ++ "/product-images/"
      ++ (PREVIEW_STEM ++ p.id ++ "." ++ extOfDataUri (p.previewImage.getD ""))))
      (req.protocol ++ "://") = true
  rw [str_append_assoc, str_append_assoc]
  exact strStartsWith_append (req.protocol ++ "://") _

theorem c4_witness :
    strStartsWith ((Product.mk "1" (some "data:image/png;base64,AA==") "r").previewImage.getD "")
        "data:image" = true ∧
    ∀ q ∈ storeWriteRecords (replaceById ⟨"http", "h"⟩ true "1"
        (Product.mk "1" (some "data:image/png;base64,AA==") "r")),
      strStartsWith (q.previewImage.getD "") ("http" ++ "://") = true :=
  ⟨by decide,
   c4_success_persists_url ⟨"http", "h"⟩ "1"
     (Product.mk "1" (some "data:image/png;base64,AA==") "r") (by decide)⟩

/-- C5: `sendFile` in the source performs a bare `path.resolve` of the
user-supplied filename against the image directory and serves the result:
a traversal input resolves outside the image directory, is served, and no
client error is produced — the claimed rejection is absent from the
code. -/
theorem c5_traversal_not_rejected :
    sendFile "/app" "../../../../etc/passwd" = [Ev.serveFile "/etc/passwd"] ∧
    strStartsWith "/etc/passwd" ("/app/" ++ imageStorageDirectory) = false ∧
    (sendFile "/app" "../../../../etc/passwd").all
      (fun e => !(Ev.isHttpError e)) = true := by
  decide

/-- C7 counterexample: the "file delete iff `previewImage` non-empty"
biconditional fails: for a record whose non-empty `previewImage` ends in
`/` (empty last path segment), `split('/').pop()` is empty and no file
delete is requested, yet the record is deleted. -/
theorem c7_counterexample :
    (((Product.mk "42" (some "http://h/product-images/") "r").previewImage.getD ""
        == "") = false) ∧
    fileDeletePaths (deleteById true "42"
        (Product.mk "42" (some "http://h/product-images/") "r")) = [] ∧
    Ev.repoDeleteById "42" ∈ deleteById true "42"
        (Product.mk "42" (some "http://h/product-images/") "r") := by
  decide

/-- C7 (amended): on delete of an existing record, a file delete is
requested iff `previewImage` is non-empty and its last `/`-segment is
non-empty; the deleted path is the image directory joined with that last
segment; and the record is deleted from the Record Store regardless of
the unlink outcome. -/
theorem c7_delete_behaviour (u : Bool) (id : String) (found : Product) :
    fileDeletePaths (deleteById u id found) =
      (if (found.previewImage.getD "") ≠ ""
          ∧ lastSeg (found.previewImage.getD "") ≠ "" then
         [imageStorageDirectory ++ "/" ++ lastSeg (found.previewImage.getD "")]
       else []) ∧
    Ev.repoDeleteById id ∈ deleteById u id found := by
  constructor
  · by_cases h1 : (found.previewImage.getD "") = ""
    · simp [deleteById, fileDeletePaths, h1]
    · by_cases h2 : lastSeg (found.previewImage.getD "") = ""
      · cases u <;>
          simp [deleteById, deleteProductPreviewImage, fileDeletePaths, h1, h2]
      · cases u <;>
          simp [deleteById, deleteProductPreviewImage, fileDeletePaths, h1, h2]
  · by_cases h1 : (found.previewImage.getD "") = ""
    · simp [deleteById, h1]
    · by_cases h2 : lastSeg (found.previewImage.getD "") = ""
      · cases u <;> simp [deleteById, deleteProductPreviewImage, h1, h2]
      · cases u <;> simp [deleteById, deleteProductPreviewImage, h1, h2]

/-- The MIME-portion search yields `""` when the declared subtype contains
no occurrence of `jpeg`, `png`, or `jpg` (and no `;`). -/
theorem extOfDataUri_no_match (subty payload : String)
    (hsemi : ∀ c ∈ subty.data, (c != ';') = true)
    (h2 : hasSubL "jpeg".data subty.data = false)
    (h3 : hasSubL "png".data subty.data = false)
    (h4 : hasSubL "jpg".data subty.data = false) :
    extOfDataUri ("data:image/" ++ subty ++ ";base64," ++ payload) = "" := by
  have hconc : ∀ c ∈ "data:image/".data, (c != ';') = true := by decide
  have hall : ∀ c ∈ "data:image/".data ++ subty.data, (c != ';') = true := by
    intro c hc
    rcases List.mem_append.mp hc with hc2 | hc2
    · exact hconc c hc2
    · exact hsemi c hc2
  have hdata : ("data:image/" ++ subty ++ ";base64," ++ payload).data
      = ("data:image/".data ++ subty.data)
          ++ (";base64,".data ++ payload.data) := by
    show (("data:image/".data ++ subty.data) ++ ";base64,".data)
        ++ payload.data = _
    rw [List.append_assoc]
  rw [extOfDataUri, hdata, takeWhile_append_all _ hall]
  rw [show (List.takeWhile (fun c => c != ';')
        (";base64,".data ++ payload.data)) = [] from rfl]
  rw [List.append_nil, extSearchL_header]
  exact extSearchL_eq_empty h2 h3 h4

/-- C8: a replace whose data-URI declares a MIME subtype containing none
of `jpeg`, `png`, `jpg` derives the empty extension, producing the
storage filename `preview_<id>.` with a trailing dot; this is defined,
non-crashing behaviour: the file write happens, exactly one Record Store
write follows, and no error is produced. -/
theorem c8_unsupported_subtype_empty_ext (req : ReqInfo) (w : Bool)
    (id pid prest subty payload : String)
    (hsemi : ∀ c ∈ subty.data, (c != ';') = true)
    (h2 : hasSubL "jpeg".data subty.data = false)
    (h3 : hasSubL "png".data subty.data = false)
    (h4 : hasSubL "jpg".data subty.data = false) :
    fileWritePaths (replaceById req w id (Product.mk pid
        (some ("data:image/" ++ subty ++ ";base64," ++ payload)) prest))
      = [imageStorageDirectory ++ "/" ++ ("preview_" ++ pid ++ ".")] ∧
    (storeWriteRecords (replaceById req w id (Product.mk pid
        (some ("data:image/" ++ subty ++ ";base64," ++ payload)) prest))).length
      = 1 ∧
    (replaceById req w id (Product.mk pid
        (some ("data:image/" ++ subty ++ ";base64," ++ payload)) prest)).all
      (fun e => !(Ev.isHttpError e)) = true := by
  have hsw : strStartsWith ("data:image/" ++ subty ++ ";base64," ++ payload)
      "data:image" = true := rfl
  have hne : (("data:image/" ++ subty ++ ";base64," ++ payload) == "")
      = false := rfl
  have hext := extOfDataUri_no_match subty payload hsemi h2 h3 h4
  refine ⟨?_, ?_, ?_⟩ <;>
    cases w <;>
    simp [replaceById, handleRawImageProductReplacement, hsw, hne, hext,
      fileWritePaths, storeWriteRecords, Ev.isHttpError, str_append_empty,
      PREVIEW_STEM]

theorem c8_witness :
    (∀ c ∈ "gif".data, (c != ';') = true) ∧
    hasSubL "jpeg".data "gif".data = false ∧
    hasSubL "png".data "gif".data = false ∧
    hasSubL "jpg".data "gif".data = false ∧
    fileWritePaths (replaceById ⟨"http", "h"⟩ true "7" (Product.mk "7"
        (some ("data:image/" ++ "gif" ++ ";base64," ++ "AA==")) "r"))
      = ["images/product/preview_7."] :=
  ⟨by decide, by decide, by decide, by decide,
   (c8_unsupported_subtype_empty_ext ⟨"http", "h"⟩ true "7" "7" "r" "gif"
      "AA==" (by decide) (by decide) (by decide) (by decide)).1⟩

/-- Taking as many elements as `takeWhile` kept recovers `takeWhile`. -/
theorem take_length_takeWhile (p : Char → Bool) (l : List Char) :
    l.take (l.takeWhile p).length = l.takeWhile p := by
  induction l with
  | nil => rfl
  | cons c rest ih =>
    by_cases hc : p c = true
    · simp [List.takeWhile_cons, hc, ih]
    · simp [List.takeWhile_cons, hc]

/-- When `s` does not have the full well-formed
`data:image/<subtype>;base64,<payload>` shape (non-empty word-character
subtype), the header-stripping regex removes nothing. -/
theorem stripDataUriHeader_eq_self {s : String}
    (h : ¬ ∃ subty payload : String, subty ≠ ""
          ∧ (∀ c ∈ subty.data, isWordChar c = true)
          ∧ s = "data:image/" ++ subty ++ ";base64," ++ payload) :
    stripDataUriHeader s = s := by
  simp only [stripDataUriHeader]
  split
  case isFalse => rfl
  case isTrue hA =>
    split
    case isFalse => rfl
    case isTrue hB =>
        exfalso
        apply h
        rw [Bool.and_eq_true] at hB
        obtain ⟨hw, h8⟩ := hB
        rw [bne_iff_ne] at hw
        rw [beq_iff_eq] at h8
        rw [beq_iff_eq] at hA
        refine ⟨String.mk ((s.data.drop 11).takeWhile isWordChar),
                String.mk (((s.data.drop 11).drop
                    ((s.data.drop 11).takeWhile isWordChar).length).drop 8),
                ?_, ?_, ?_⟩
        · intro he
          exact hw (congrArg String.data he)
        · intro c hc
          exact List.mem_takeWhile_imp hc
        · apply String.ext
          show s.data = (("data:image/".data
              ++ (s.data.drop 11).takeWhile isWordChar)
              ++ ";base64,".data)
              ++ ((s.data.drop 11).drop
                    ((s.data.drop 11).takeWhile isWordChar).length).drop 8
          have e1 := (List.take_append_drop 11 s.data).symm
          rw [hA] at e1
          have e3 := take_length_takeWhile isWordChar (s.data.drop 11)
          have e4 := (List.take_append_drop 8
              ((s.data.drop 11).drop
                ((s.data.drop 11).takeWhile isWordChar).length)).symm
          rw [h8] at e4
          rw [List.append_assoc, List.append_assoc, e1]
          congr 1
          calc s.data.drop 11
              = (s.data.drop 11).take
                    ((s.data.drop 11).takeWhile isWordChar).length
                  ++ (s.data.drop 11).drop
                    ((s.data.drop 11).takeWhile isWordChar).length :=
                (List.take_append_drop _ _).symm
            _ = (s.data.drop 11).takeWhile isWordChar
                  ++ (s.data.drop 11).drop
                    ((s.data.drop 11).takeWhile isWordChar).length := by
                rw [e3]
            _ = (s.data.drop 11).takeWhile isWordChar
                  ++ (";base64,".data
                        ++ ((s.data.drop 11).drop
                            ((s.data.drop 11).takeWhile isWordChar).length).drop 8) := by
                rw [← e4]

/-- C9: when `previewImage` merely starts with `data:image` but lacks the
full well-formed `data:image/<subtype>;base64,<payload>` shape, the
file-writing branch is still taken, the prefix-stripping regex removes
nothing, and the entire string is base64-decoded (best effort) and
written to the storage file. -/
theorem c9_malformed_header_decodes_whole (req : ReqInfo) (w : Bool)
    (id : String) (p : Product) (s : String)
    (h1 : p.previewImage = some s)
    (h2 : strStartsWith s "data:image" = true)
    (h3 : ¬ ∃ subty payload : String, subty ≠ ""
          ∧ (∀ c ∈ subty.data, isWordChar c = true)
          ∧ s = "data:image/" ++ subty ++ ";base64," ++ payload) :
    stripDataUriHeader s = s ∧
    fileWriteBytes (replaceById req w id p) = [bufferFromBase64 s] := by
  have hstrip := stripDataUriHeader_eq_self h3
  have hne : (s == "") = false := startsWith_dataimage_ne_empty h2
  refine ⟨hstrip, ?_⟩
  cases w <;>
    simp [replaceById, handleRawImageProductReplacement, h1, h2, hne, hstrip,
      fileWriteBytes]

theorem c9_witness :
    strStartsWith "data:image=AA" "data:image" = true ∧
    stripDataUriHeader "data:image=AA" = "data:image=AA" ∧
    fileWriteBytes (replaceById ⟨"http", "h"⟩ true "1"
        (Product.mk "1" (some "data:image=AA") "r"))
      = [bufferFromBase64 "data:image=AA"] ∧
    bufferFromBase64 "data:image=AA" = bufferFromBase64 "data:image" := by
  have hmain := c9_malformed_header_decodes_whole ⟨"http", "h"⟩ true "1"
      (Product.mk "1" (some "data:image=AA") "r") "data:image=AA" rfl
      (by decide)
      (by
        rintro ⟨st, pl, hne, hwc, heq⟩
        have hlen := congrArg String.length heq
        rw [show ("data:image=AA" : String).length = 13 from rfl] at hlen
        rw [String.length_append, String.length_append,
          String.length_append] at hlen
        rw [show ("data:image/" : String).length = 11 from rfl,
          show ((";base64," : String)).length = 8 from rfl] at hlen
        omega)
  exact ⟨by decide, hmain.1, hmain.2, by decide⟩

/-- C10: the base64 decode in the data-URI branch is total and
best-effort: for an arbitrary `previewImage` string in that branch the
call always produces exactly one file write carrying the decoded bytes
(each a byte value below 256), exactly one Record Store write, and no
error to the caller. -/
theorem c10_decode_total_best_effort (req : ReqInfo) (w : Bool)
    (id : String) (p : Product)
    (h : strStartsWith (p.previewImage.getD "") "data:image" = true) :
    fileWriteBytes (replaceById req w id p)
      = [bufferFromBase64 (stripDataUriHeader (p.previewImage.getD ""))] ∧
    (storeWriteRecords (replaceById req w id p)).length = 1 ∧
    (replaceById req w id p).all (fun e => !(Ev.isHttpError e)) = true ∧
    ∀ b ∈ bufferFromBase64 (stripDataUriHeader (p.previewImage.getD "")),
      b < 256 := by
  have hne : ((p.previewImage.getD "") == "") = false :=
    startsWith_dataimage_ne_empty h
  refine ⟨?_, ?_, ?_, bufferFromBase64_lt _⟩ <;>
    cases w <;>
    simp [replaceById, handleRawImageProductReplacement, h, hne,
      fileWriteBytes, storeWriteRecords, Ev.isHttpError]

theorem c10_witness :
    strStartsWith ((Product.mk "1" (some "data:image/png;base64,QQ==QQ") "r").previewImage.getD "")
        "data:image" = true ∧
    fileWriteBytes (replaceById ⟨"http", "h"⟩ false "1"
        (Product.mk "1" (some "data:image/png;base64,QQ==QQ") "r"))
      = [bufferFromBase64 (stripDataUriHeader "data:image/png;base64,QQ==QQ")] ∧
    bufferFromBase64 (stripDataUriHeader "data:image/png;base64,QQ==QQ") = [65] ∧
    ∀ b ∈ bufferFromBase64 (stripDataUriHeader "data:image/png;base64,QQ==QQ"),
      b < 256 :=
  ⟨by decide,
   (c10_decode_total_best_effort ⟨"http", "h"⟩ false "1"
      (Product.mk "1" (some "data:image/png;base64,QQ==QQ") "r") (by decide)).1,
   by decide,
   (c10_decode_total_best_effort ⟨"http", "h"⟩ false "1"
      (Product.mk "1" (some "data:image/png;base64,QQ==QQ") "r") (by decide)).2.2.2⟩

end AdminBoilerplate
